import Mathlib

/-!
Shallow embedding of the Go socket chat server (`socketServer/main.go`).

The server keeps a registry `clients : map[net.Conn]*Client` guarded by a
`sync.RWMutex`.  We model a `net.Conn` by a numeric identifier and the Go map
by an association list whose list order stands for the (unspecified) map
iteration order: a Go `for ... range` over the map visits the entries in some
order, and that order is exactly the order of the modelled list.  Two
association lists that are permutations of each other denote the same map
contents.

Side effects are made explicit: an operation returns, besides the new
registry, the list of `(target connection, message)` sends it performs and the
list of connections whose `Close()` is dispatched to a background goroutine.
-/

/-- A `net.Conn`, modelled as an opaque numeric identifier. -/
abbrev Conn := Nat

/-- `Client` from `main.go`: a connected client.  The `server` back pointer
carries no data and is omitted. -/
structure Client where
  conn : Conn
  nickname : String
  deriving DecidableEq, Repr

/-- The server's `clients` map, as an association list in iteration order. -/
abbrev Registry := List (Conn × Client)

/-- The effect of one server operation: the registry afterwards, the messages
written (`Client.send` targets the client's own connection), and the
connections closed in a spawned goroutine (`go func() { conn.Close() ... }`). -/
structure ActionResult where
  registry : Registry
  sends : List (Conn × String)
  closes : List Conn
  deriving DecidableEq, Repr

/-- `addClient`: `s.clients[client.conn] = client`.  Go map assignment stores
the value under the key, replacing any entry the key already has; where the
new entry sits in iteration order is unspecified, so we keep the replaced
entry's position and append a fresh entry at the end. -/
def addClient (reg : Registry) (client : Client) : Registry :=
  match reg with
  | [] => [(client.conn, client)]
  | p :: rest =>
      if p.1 = client.conn then (client.conn, client) :: rest
      else p :: addClient rest client

/-- `removeClient`: `delete(s.clients, client.conn)`.  Go `delete` removes the
entry if present and is a no-op otherwise. -/
def removeClient (reg : Registry) (c : Conn) : Registry :=
  reg.filter (fun p => p.1 != c)

/-- `broadcast`: iterate over the map, skip the entry whose key equals the
sender's connection (when a sender is given), and `client.send(message)` to
the rest.  `sender = none` models the `nil` sender. -/
def broadcast (reg : Registry) (message : String) (sender : Option Conn) :
    List (Conn × String) :=
  match sender with
  | some sc =>
      reg.filterMap (fun p =>
        if p.1 = sc then none else some (p.2.conn, message))
  | none => reg.map (fun p => (p.2.conn, message))

/-- `getClientList`: `"No clients connected"` on an empty map, otherwise the
header `"Connected clients (<n>):"` followed by `"\n- <nickname>"` per entry
in iteration order. -/
def getClientList (reg : Registry) : String :=
  if reg.length = 0 then "No clients connected"
  else
    reg.foldl (fun acc p => acc ++ "\n- " ++ p.2.nickname)
      ("Connected clients (" ++ toString reg.length ++ "):")

/-- `kickClient`: scan the map in iteration order for the first client whose
`nickname` matches; send it `"You have been kicked!"`, delete its entry, spawn
a goroutine closing its connection, and report `true`; report `false` when no
nickname matches. -/
def kickClient (reg : Registry) (nickname : String) : Bool × ActionResult :=
  match reg.find? (fun p => p.2.nickname == nickname) with
  | some hit =>
      (true,
        { registry := reg.filter (fun p => p.1 != hit.1)
          sends := [(hit.2.conn, "You have been kicked!")]
          closes := [hit.1] })
  | none => (false, { registry := reg, sends := [], closes := [] })

/-- `strings.SplitN(s, " ", 2)`: everything before the first space, then
everything after it; the whole string alone when it has no space. -/
def splitN2 (s : String) : List String :=
  match s.toList.dropWhile (fun c => c != ' ') with
  | [] => [s]
  | _ :: rest =>
      [String.mk (s.toList.takeWhile (fun c => c != ' ')), String.mk rest]

/-- `handleKickClient`: split the message on the first space; with no second
field, send the usage string to the sender and stop.  Otherwise kick the
second field verbatim; on success tell the kicker and broadcast the kick
notice with a `nil` sender (nobody excluded). -/
def handleKickClient (reg : Registry) (message : String) (sender : Client) :
    ActionResult :=
  match splitN2 message with
  | [_cmd, targetNickname] =>
      let res := kickClient reg targetNickname
      if res.1 then
        { registry := res.2.registry
          sends := res.2.sends
            ++ [(sender.conn, "You have kicked " ++ targetNickname)]
            ++ broadcast res.2.registry
                (targetNickname ++ " was kicked by " ++ sender.nickname) none
          closes := res.2.closes }
      else res.2
  | _ =>
      { registry := reg
        sends := [(sender.conn, "Usage: /kick <nickname>")]
        closes := [] }

/-- Whitespace as recognised by `strings.TrimSpace` (ASCII part; the claims
involve only ASCII input). -/
def isSpaceChar (c : Char) : Bool :=
  c == ' ' || c == '\t' || c == '\n' || c == '\x0b' || c == '\x0c' || c == '\r'

/-- `strings.TrimSpace`: drop whitespace from both ends. -/
def trimSpace (s : String) : String :=
  String.mk (((s.toList.dropWhile isSpaceChar).reverse.dropWhile
    isSpaceChar).reverse)

/-- The nickname `handleClient` ends up with: the zero value `""` when the
scanner yields no line (end of stream before any input), otherwise the first
line trimmed, with `""` replaced by `"Anonymous"`. -/
def handshakeNickname (firstLine : Option String) : String :=
  match firstLine with
  | some line =>
      let nickname := trimSpace line
      if nickname = "" then "Anonymous" else nickname
  | none => ""

/-- The handshake part of `handleClient`: name the client, `addClient` it,
then broadcast `"<nickname> joined the chat"` excluding the new client. -/
def handshake (reg : Registry) (c : Conn) (firstLine : Option String) :
    Registry × List (Conn × String) :=
  let client : Client := { conn := c, nickname := handshakeNickname firstLine }
  let reg2 := addClient reg client
  (reg2, broadcast reg2 (client.nickname ++ " joined the chat") (some c))

/-- Lookup of the client registered under a connection. -/
def findConn (reg : Registry) (c : Conn) : Option Client :=
  (reg.find? (fun p => p.1 == c)).map (fun p => p.2)

/-- Unfolding lemma: `addClient` on a non-empty registry. -/
theorem addClient_cons (q : Conn × Client) (rest : Registry) (cl : Client) :
    addClient (q :: rest) cl =
      if q.1 = cl.conn then (cl.conn, cl) :: rest
      else q :: addClient rest cl := rfl

/-- Unfolding lemma: lookup on a non-empty registry. -/
theorem findConn_cons (p : Conn × Client) (rest : Registry) (c : Conn) :
    findConn (p :: rest) c = if p.1 = c then some p.2 else findConn rest c := by
  by_cases h : p.1 = c
  · simp [findConn, List.find?_cons_of_pos, h]
  · simp [findConn, List.find?_cons_of_neg, h]

/-- After `addClient`, the client's connection key maps to the client. -/
theorem findConn_addClient_self (reg : Registry) (cl : Client) :
    findConn (addClient reg cl) cl.conn = some cl := by
  induction reg with
  | nil => simp [addClient, findConn_cons]
  | cons p rest ih =>
      by_cases h : p.1 = cl.conn
      · simp [addClient_cons, h, findConn_cons]
      · simp [addClient_cons, h, findConn_cons, ih]

/-- `addClient` does not change the binding of any other key. -/
theorem findConn_addClient_of_ne (reg : Registry) (cl : Client) (c : Conn)
    (h : c ≠ cl.conn) : findConn (addClient reg cl) c = findConn reg c := by
  induction reg with
  | nil => simp [addClient, findConn_cons, findConn, Ne.symm h]
  | cons p rest ih =>
      by_cases hp : p.1 = cl.conn
      · simp [addClient_cons, hp, findConn_cons, Ne.symm h]
      · simp [addClient_cons, hp, findConn_cons, ih]

/-- Entries under other keys survive `addClient`. -/
theorem mem_addClient_of_ne (reg : Registry) (cl : Client) (p : Conn × Client)
    (hmem : p ∈ reg) (h : p.1 ≠ cl.conn) : p ∈ addClient reg cl := by
  induction reg with
  | nil => cases hmem
  | cons q rest ih =>
      rcases List.mem_cons.mp hmem with heq | hmem2
      · by_cases hq : q.1 = cl.conn
        · rw [heq] at h
          exact absurd hq h
        · rw [addClient_cons, if_neg hq, heq]
          exact List.mem_cons_self _ _
      · by_cases hq : q.1 = cl.conn
        · rw [addClient_cons, if_pos hq]
          exact List.mem_cons_of_mem _ hmem2
        · rw [addClient_cons, if_neg hq]
          exact List.mem_cons_of_mem _ (ih hmem2)

/-- A `nil`-sender broadcast reaches every registered client. -/
theorem broadcast_none_mem (reg : Registry) (m : String) (p : Conn × Client)
    (hmem : p ∈ reg) : (p.2.conn, m) ∈ broadcast reg m none := by
  simp only [broadcast, List.mem_map]
  exact ⟨p, hmem, rfl⟩

/-- A broadcast excluding `sc` reaches every registered client under another
key. -/
theorem broadcast_some_mem (reg : Registry) (m : String) (sc : Conn)
    (p : Conn × Client) (hmem : p ∈ reg) (h : p.1 ≠ sc) :
    (p.2.conn, m) ∈ broadcast reg m (some sc) := by
  simp only [broadcast, List.mem_filterMap]
  exact ⟨p, hmem, by rw [if_neg h]⟩

/-- In a well-formed registry (keys equal the stored client's connection), a
broadcast excluding `sc` never targets `sc`. -/
theorem broadcast_some_ne (reg : Registry) (m : String) (sc : Conn)
    (hwf : ∀ p ∈ reg, p.1 = p.2.conn) (q : Conn × String)
    (hq : q ∈ broadcast reg m (some sc)) : q.1 ≠ sc := by
  simp only [broadcast, List.mem_filterMap] at hq
  obtain ⟨p, hp, he⟩ := hq
  by_cases h : p.1 = sc
  · rw [if_pos h] at he
    cases he
  · rw [if_neg h] at he
    have hq2 : (p.2.conn, m) = q := Option.some.inj he
    rw [← hq2]
    show p.2.conn ≠ sc
    rw [← hwf p hp]
    exact h

/-- Every message a broadcast sends is the broadcast message. -/
theorem broadcast_msg (reg : Registry) (m : String) (sender : Option Conn)
    (q : Conn × String) (hq : q ∈ broadcast reg m sender) : q.2 = m := by
  cases sender with
  | none =>
      simp only [broadcast, List.mem_map] at hq
      obtain ⟨p, hp, he⟩ := hq
      rw [← he]
  | some sc =>
      simp only [broadcast, List.mem_filterMap] at hq
      obtain ⟨p, hp, he⟩ := hq
      by_cases h : p.1 = sc
      · rw [if_pos h] at he
        cases he
      · rw [if_neg h] at he
        have hq2 : (p.2.conn, m) = q := Option.some.inj he
        rw [← hq2]

/-- Splitting `"/kick " ++ rest` yields the command word and `rest` verbatim:
the second field is everything after the first space character, untrimmed. -/
theorem splitN2_kick (rest : String) :
    splitN2 ("/kick " ++ rest) = ["/kick", rest] := by
  have h : ("/kick " ++ rest).toList
      = '/' :: 'k' :: 'i' :: 'c' :: 'k' :: ' ' :: rest.toList := by
    show ("/kick " ++ rest).data = _
    rw [String.data_append]
    rfl
  unfold splitN2
  rw [h]
  simp [List.dropWhile_cons, List.takeWhile_cons]

/-- A message without any space character does not split. -/
theorem splitN2_no_space (s : String) (h : ∀ c ∈ s.toList, c ≠ ' ') :
    splitN2 s = [s] := by
  have hd : s.toList.dropWhile (fun c => c != ' ') = [] := by
    rw [List.dropWhile_eq_nil_iff]
    intro x hx
    simpa using h x hx
  unfold splitN2
  rw [hd]

/-- Unfolding lemma: `removeClient` on a non-empty registry. -/
theorem removeClient_cons (p : Conn × Client) (rest : Registry) (c : Conn) :
    removeClient (p :: rest) c =
      if p.1 = c then removeClient rest c else p :: removeClient rest c := by
  by_cases h : p.1 = c <;> simp [removeClient, List.filter_cons, h]

/-- Removing an absent key leaves the registry unchanged. -/
theorem removeClient_absent (reg : Registry) (c : Conn)
    (h : findConn reg c = none) : removeClient reg c = reg := by
  induction reg with
  | nil => rfl
  | cons p rest ih =>
      rw [findConn_cons] at h
      by_cases hp : p.1 = c
      · rw [if_pos hp] at h
        cases h
      · rw [if_neg hp] at h
        rw [removeClient_cons, if_neg hp, ih h]

/-- Removing twice is the same as removing once. -/
theorem removeClient_idem (reg : Registry) (c : Conn) :
    removeClient (removeClient reg c) c = removeClient reg c := by
  induction reg with
  | nil => rfl
  | cons p rest ih =>
      by_cases hp : p.1 = c
      · rw [removeClient_cons, if_pos hp, ih]
      · rw [removeClient_cons, if_neg hp, removeClient_cons, if_neg hp, ih]

/-- `removeClient` does not change the binding of any other key. -/
theorem findConn_removeClient_of_ne (reg : Registry) (c c2 : Conn)
    (h : c2 ≠ c) : findConn (removeClient reg c) c2 = findConn reg c2 := by
  induction reg with
  | nil => rfl
  | cons p rest ih =>
      by_cases hp : p.1 = c
      · have hne : p.1 ≠ c2 := by
          rw [hp]
          exact fun hh => h hh.symm
        rw [removeClient_cons, if_pos hp, ih, findConn_cons, if_neg hne]
      · rw [removeClient_cons, if_neg hp, findConn_cons, findConn_cons, ih]

/-- Inserting a fresh key appends the entry (in our order model). -/
theorem addClient_absent (reg : Registry) (cl : Client)
    (h : findConn reg cl.conn = none) :
    addClient reg cl = reg ++ [(cl.conn, cl)] := by
  induction reg with
  | nil => rfl
  | cons p rest ih =>
      rw [findConn_cons] at h
      by_cases hp : p.1 = cl.conn
      · rw [if_pos hp] at h
        cases h
      · rw [if_neg hp] at h
        rw [addClient_cons, if_neg hp, ih h, List.cons_append]

/-- Length of the roster fold: the header plus `"\n- <nickname>"` per entry. -/
theorem roster_foldl_length (l : Registry) (init : String) :
    (l.foldl (fun acc p => acc ++ "\n- " ++ p.2.nickname) init).length
      = init.length + (l.map (fun p => 3 + p.2.nickname.length)).sum := by
  induction l generalizing init with
  | nil => simp
  | cons p rest ih =>
      rw [List.foldl_cons, ih, List.map_cons, List.sum_cons]
      have h3 : (("\n- " : String)).length = 3 := rfl
      rw [String.length_append, String.length_append, h3]
      omega

/-- Claim C6: dispatching `/kick` with no argument sends exactly
`"Usage: /kick <nickname>"` to the sender and leaves the registry unchanged
(and closes no connection). -/
theorem kick_no_argument (reg : Registry) (sender : Client) :
    handleKickClient reg "/kick" sender =
      { registry := reg
        sends := [(sender.conn, "Usage: /kick <nickname>")]
        closes := [] } := by
  rfl

/-- Claim C1, counterexample: after the handshake the requester is in the
registry, so a requester with no other participants gets the one-entry roster
`"Connected clients (1):\n- Alice"`, not `"No clients connected"`. -/
theorem list_only_requester_cex :
    (handshake [] 1 (some "Alice")).1 = [(1, ⟨1, "Alice"⟩)] ∧
    getClientList [((1 : Nat), ⟨1, "Alice"⟩)]
      = "Connected clients (1):\n- Alice" ∧
    getClientList [((1 : Nat), ⟨1, "Alice"⟩)] ≠ "No clients connected" := by
  decide

/-- Claim C1, amended: `getClientList` yields `"No clients connected"` only on
an empty registry; with only the requester registered it yields the one-entry
roster naming the requester; with exactly Alice and Bob registered it yields
the count-2 header and both `"- <name>"` lines, in either enumeration
order. -/
theorem list_roster (c1 c2 : Conn) (n : String) :
    getClientList [] = "No clients connected" ∧
    getClientList [(c1, ⟨c1, n⟩)] = "Connected clients (1):\n- " ++ n ∧
    getClientList [(c1, ⟨c1, "Alice"⟩), (c2, ⟨c2, "Bob"⟩)]
      = "Connected clients (2):\n- Alice\n- Bob" ∧
    getClientList [(c2, ⟨c2, "Bob"⟩), (c1, ⟨c1, "Alice"⟩)]
      = "Connected clients (2):\n- Bob\n- Alice" := by
  refine ⟨rfl, ?_, ?_, ?_⟩
  · show ("Connected clients (" ++ toString (1 : Nat) ++ "):") ++ "\n- " ++ n
        = "Connected clients (1):\n- " ++ n
    rw [show ("Connected clients (" ++ toString (1 : Nat) ++ "):") ++ "\n- "
        = "Connected clients (1):\n- " from by decide]
  · show ("Connected clients (" ++ toString (2 : Nat) ++ "):") ++ "\n- "
        ++ "Alice" ++ "\n- " ++ "Bob"
        = "Connected clients (2):\n- Alice\n- Bob"
    decide
  · show ("Connected clients (" ++ toString (2 : Nat) ++ "):") ++ "\n- "
        ++ "Bob" ++ "\n- " ++ "Alice"
        = "Connected clients (2):\n- Bob\n- Alice"
    decide

/-- Claim C3, counterexample: the kick parser splits at the first space
character, not at a whitespace run.  `"/kick  Bob"` (two spaces) produces the
target `" Bob"`, which matches nobody, so a registered `Bob` is not kicked and
nothing is sent; `"/kick\tBob"` has no space at all, so the argument `Bob`
after the tab is not extracted and the usage message is sent instead. -/
theorem kick_parse_cex :
    splitN2 "/kick  Bob" = ["/kick", " Bob"] ∧ (" Bob" : String) ≠ "Bob" ∧
    handleKickClient [((1 : Nat), ⟨1, "Bob"⟩)] "/kick  Bob" ⟨0, "Alice"⟩
      = { registry := [(1, ⟨1, "Bob"⟩)], sends := [], closes := [] } ∧
    splitN2 "/kick\tBob" = ["/kick\tBob"] ∧
    handleKickClient [((1 : Nat), ⟨1, "Bob"⟩)] "/kick\tBob" ⟨0, "Alice"⟩
      = { registry := [(1, ⟨1, "Bob"⟩)]
          sends := [(0, "Usage: /kick <nickname>")]
          closes := [] } := by
  decide

/-- Claim C3, amended: the parser splits the line at the first space character
(U+0020) only; the target nickname is the entire remainder after that space,
taken verbatim (not trimmed, later spaces included).  When the line contains
no space character at all, the usage message is sent to the sender and
nothing else happens. -/
theorem kick_parse (reg : Registry) (sender : Client) (msg rest : String)
    (hns : ∀ c ∈ msg.toList, c ≠ ' ') :
    splitN2 ("/kick " ++ rest) = ["/kick", rest] ∧
    handleKickClient reg msg sender =
      { registry := reg
        sends := [(sender.conn, "Usage: /kick <nickname>")]
        closes := [] } := by
  refine ⟨splitN2_kick rest, ?_⟩
  unfold handleKickClient
  rw [splitN2_no_space msg hns]

/-- Claim C3, witness for the amended parsing theorem at concrete inputs. -/
theorem kick_parse_witness :
    splitN2 ("/kick " ++ " Bob more") = ["/kick", " Bob more"] ∧
    handleKickClient [((1 : Nat), ⟨1, "Bob"⟩)] "/kick" ⟨0, "Alice"⟩
      = { registry := [(1, ⟨1, "Bob"⟩)]
          sends := [(0, "Usage: /kick <nickname>")]
          closes := [] } :=
  kick_parse [((1 : Nat), ⟨1, "Bob"⟩)] ⟨0, "Alice"⟩ "/kick" " Bob more"
    (by decide)

/-- Claim C4, counterexample: Go map assignment overwrites; adding a client
whose connection key is already bound replaces the bound client instead of
leaving the registry unchanged. -/
theorem add_overwrite_cex :
    addClient [((1 : Nat), ⟨1, "A"⟩)] ⟨1, "B"⟩ = [(1, ⟨1, "B"⟩)] ∧
    addClient [((1 : Nat), ⟨1, "A"⟩)] ⟨1, "B"⟩ ≠ [(1, ⟨1, "A"⟩)] := by
  decide

/-- Claim C4, amended: `addClient p` makes the registry map `p`'s connection
to `p`: a fresh key is inserted (appended in our order model), an existing
key's entry is overwritten — a no-op only when the stored entry already
equals `p` — and bindings of all other keys are untouched. -/
theorem add_updates (reg : Registry) (cl : Client) :
    findConn (addClient reg cl) cl.conn = some cl ∧
    (∀ c, c ≠ cl.conn → findConn (addClient reg cl) c = findConn reg c) ∧
    (findConn reg cl.conn = none → addClient reg cl = reg ++ [(cl.conn, cl)]) :=
  ⟨findConn_addClient_self reg cl,
    fun c h => findConn_addClient_of_ne reg cl c h,
    fun h => addClient_absent reg cl h⟩

/-- Claim C4, witness for the amended insertion theorem at concrete inputs. -/
theorem add_updates_witness :
    findConn (addClient [((1 : Nat), ⟨1, "A"⟩)] ⟨2, "B"⟩) 2 = some ⟨2, "B"⟩ ∧
    findConn (addClient [((1 : Nat), ⟨1, "A"⟩)] ⟨2, "B"⟩) 1
      = findConn [((1 : Nat), ⟨1, "A"⟩)] 1 ∧
    addClient [((1 : Nat), ⟨1, "A"⟩)] ⟨2, "B"⟩
      = [((1 : Nat), ⟨1, "A"⟩)] ++ [(2, ⟨2, "B"⟩)] :=
  ⟨(add_updates [((1 : Nat), ⟨1, "A"⟩)] ⟨2, "B"⟩).1,
    (add_updates [((1 : Nat), ⟨1, "A"⟩)] ⟨2, "B"⟩).2.1 1 (by decide),
    (add_updates [((1 : Nat), ⟨1, "A"⟩)] ⟨2, "B"⟩).2.2 (by decide)⟩

/-- Claim C7: `removeClient` is idempotent — removing an absent connection
(including a second removal) changes nothing and never errors, and every
other key's binding survives a removal untouched. -/
theorem remove_idempotent (reg : Registry) (c : Conn) :
    (findConn reg c = none → removeClient reg c = reg) ∧
    removeClient (removeClient reg c) c = removeClient reg c ∧
    (∀ c2, c2 ≠ c → findConn (removeClient reg c) c2 = findConn reg c2) :=
  ⟨removeClient_absent reg c, removeClient_idem reg c,
    fun c2 h => findConn_removeClient_of_ne reg c c2 h⟩

/-- Claim C7, witness at concrete inputs: removing absent key 1 is a no-op
and key 2's binding is untouched. -/
theorem remove_idempotent_witness :
    removeClient [((2 : Nat), ⟨2, "B"⟩)] 1 = [((2 : Nat), ⟨2, "B"⟩)] ∧
    findConn (removeClient [((2 : Nat), ⟨2, "B"⟩)] 1) 2
      = findConn [((2 : Nat), ⟨2, "B"⟩)] 2 :=
  ⟨(remove_idempotent [((2 : Nat), ⟨2, "B"⟩)] 1).1 (by decide),
    (remove_idempotent [((2 : Nat), ⟨2, "B"⟩)] 1).2.2 2 (by decide)⟩

/-- Claim C5: a broadcast excluding sender `sc` never targets `sc` and
carries exactly the broadcast message; it reaches every registered
participant under another key; a broadcast with no exclusion reaches every
registered participant.  Well-formedness (each key equals the stored
client's connection, which `addClient` guarantees) is assumed. -/
theorem broadcast_delivery (reg : Registry) (msg : String) (sc : Conn)
    (hwf : ∀ p ∈ reg, p.1 = p.2.conn) :
    (∀ q ∈ broadcast reg msg (some sc), q.1 ≠ sc ∧ q.2 = msg) ∧
    (∀ p ∈ reg, p.1 ≠ sc → (p.2.conn, msg) ∈ broadcast reg msg (some sc)) ∧
    (∀ p ∈ reg, (p.2.conn, msg) ∈ broadcast reg msg none) :=
  ⟨fun q hq => ⟨broadcast_some_ne reg msg sc hwf q hq,
      broadcast_msg reg msg (some sc) q hq⟩,
    fun p hp h => broadcast_some_mem reg msg sc p hp h,
    fun p hp => broadcast_none_mem reg msg p hp⟩

/-- Claim C5, witness at a concrete two-client registry, excluding
connection 1. -/
theorem broadcast_delivery_witness :
    ((2 : Nat), "hi")
      ∈ broadcast [((1 : Nat), ⟨1, "A"⟩), (2, ⟨2, "B"⟩)] "hi" (some 1) ∧
    ((1 : Nat), "hi")
      ∈ broadcast [((1 : Nat), ⟨1, "A"⟩), (2, ⟨2, "B"⟩)] "hi" none :=
  ⟨(broadcast_delivery [((1 : Nat), ⟨1, "A"⟩), (2, ⟨2, "B"⟩)] "hi" 1
      (by decide)).2.1 (2, ⟨2, "B"⟩) (by decide) (by decide),
    (broadcast_delivery [((1 : Nat), ⟨1, "A"⟩), (2, ⟨2, "B"⟩)] "hi" 1
      (by decide)).2.2 (1, ⟨1, "A"⟩) (by decide)⟩

/-- Claim C2: a successful kick of the participant found for nickname `n`
sends the victim `"You have been kicked!"`, removes the victim's entry,
dispatches the victim's connection close to a background goroutine (the
`closes` effect, so the kicker's session is not blocked), sends the kicker
`"You have kicked <n>"`, and broadcasts `"<n> was kicked by <kicker>"` to
every remaining registered participant. -/
theorem kick_success (reg : Registry) (sender : Client) (n : String)
    (vc : Conn) (victim : Client)
    (hfind : reg.find? (fun p => p.2.nickname == n) = some (vc, victim)) :
    (victim.conn, "You have been kicked!")
      ∈ (handleKickClient reg ("/kick " ++ n) sender).sends ∧
    (∀ p ∈ (handleKickClient reg ("/kick " ++ n) sender).registry,
      p.1 ≠ vc) ∧
    (handleKickClient reg ("/kick " ++ n) sender).closes = [vc] ∧
    (sender.conn, "You have kicked " ++ n)
      ∈ (handleKickClient reg ("/kick " ++ n) sender).sends ∧
    (∀ p ∈ (handleKickClient reg ("/kick " ++ n) sender).registry,
      (p.2.conn, n ++ " was kicked by " ++ sender.nickname)
        ∈ (handleKickClient reg ("/kick " ++ n) sender).sends) := by
  have hr : handleKickClient reg ("/kick " ++ n) sender =
      { registry := reg.filter (fun p => p.1 != vc)
        sends := (victim.conn, "You have been kicked!")
          :: (sender.conn, "You have kicked " ++ n)
          :: broadcast (reg.filter (fun p => p.1 != vc))
              (n ++ " was kicked by " ++ sender.nickname) none
        closes := [vc] } := by
    simp only [handleKickClient, splitN2_kick, kickClient, hfind]
    rfl
  rw [hr]
  refine ⟨List.mem_cons_self _ _, ?_, rfl,
    List.mem_cons_of_mem _ (List.mem_cons_self _ _), ?_⟩
  · intro p hp
    have h2 := (List.mem_filter.mp hp).2
    simpa using h2
  · intro p hp
    exact List.mem_cons_of_mem _ (List.mem_cons_of_mem _
      (broadcast_none_mem _ _ p hp))

/-- Claim C2, witness: Alice kicks Bob in a concrete two-client registry. -/
theorem kick_success_witness :
    ([((1 : Nat), ⟨1, "Alice"⟩), (2, ⟨2, "Bob"⟩)] : Registry).find?
        (fun p => p.2.nickname == "Bob") = some (2, ⟨2, "Bob"⟩) ∧
    (handleKickClient [((1 : Nat), ⟨1, "Alice"⟩), (2, ⟨2, "Bob"⟩)]
        ("/kick " ++ "Bob") ⟨1, "Alice"⟩).closes = [2] :=
  ⟨by decide,
    (kick_success [((1 : Nat), ⟨1, "Alice"⟩), (2, ⟨2, "Bob"⟩)] ⟨1, "Alice"⟩
      "Bob" 2 ⟨2, "Bob"⟩ (by decide)).2.2.1⟩

/-- Claim C9: the display name is the first line with surrounding whitespace
trimmed; a whitespace-only or empty line gives `"Anonymous"`; the name is
never empty; and the participant is registered under exactly that name. -/
theorem handshake_name (line : String) (reg : Registry) (c : Conn) :
    (trimSpace line ≠ "" → handshakeNickname (some line) = trimSpace line) ∧
    (trimSpace line = "" → handshakeNickname (some line) = "Anonymous") ∧
    handshakeNickname (some line) ≠ "" ∧
    findConn (handshake reg c (some line)).1 c
      = some ⟨c, handshakeNickname (some line)⟩ := by
  refine ⟨fun h => by simp [handshakeNickname, h],
    fun h => by simp [handshakeNickname, h], ?_, ?_⟩
  · by_cases h : trimSpace line = ""
    · rw [show handshakeNickname (some line) = "Anonymous" from by
        simp [handshakeNickname, h]]
      decide
    · rw [show handshakeNickname (some line) = trimSpace line from by
        simp [handshakeNickname, h]]
      exact h
  · exact findConn_addClient_self reg ⟨c, handshakeNickname (some line)⟩

/-- Claim C9, witness: the line `" Bob "` trims to `"Bob"` and a
whitespace-only line yields `"Anonymous"`. -/
theorem handshake_name_witness :
    handshakeNickname (some " Bob ") = trimSpace " Bob " ∧
    handshakeNickname (some "  ") = "Anonymous" ∧
    findConn (handshake [] 7 (some " Bob ")).1 7
      = some ⟨7, handshakeNickname (some " Bob ")⟩ :=
  ⟨(handshake_name " Bob " [] 7).1 (by decide),
    (handshake_name "  " [] 7).2.1 (by decide),
    (handshake_name " Bob " [] 7).2.2.2⟩

/-- Claim C10: when the stream ends before any nickname line, the session
still registers a participant with the empty display name (not
`"Anonymous"`) and broadcasts the join notice `" joined the chat"` with the
empty name to every other registered participant. -/
theorem handshake_eof (reg : Registry) (c : Conn) :
    handshakeNickname none = "" ∧
    handshakeNickname none ≠ "Anonymous" ∧
    findConn (handshake reg c none).1 c = some ⟨c, ""⟩ ∧
    (handshake reg c none).2
      = broadcast (addClient reg ⟨c, ""⟩) " joined the chat" (some c) ∧
    (∀ p ∈ reg, p.1 ≠ c →
      (p.2.conn, " joined the chat") ∈ (handshake reg c none).2) := by
  refine ⟨rfl, by decide, findConn_addClient_self reg ⟨c, ""⟩, rfl, ?_⟩
  intro p hp h
  exact broadcast_some_mem _ _ _ p (mem_addClient_of_ne reg ⟨c, ""⟩ p hp h) h

/-- Claim C10, witness: end-of-stream handshake on a registry already holding
Eve registers the empty name and Eve receives the bare join notice. -/
theorem handshake_eof_witness :
    findConn (handshake [((5 : Nat), ⟨5, "Eve"⟩)] 9 none).1 9
      = some ⟨9, ""⟩ ∧
    ((5 : Nat), " joined the chat")
      ∈ (handshake [((5 : Nat), ⟨5, "Eve"⟩)] 9 none).2 :=
  ⟨(handshake_eof [((5 : Nat), ⟨5, "Eve"⟩)] 9).2.2.1,
    (handshake_eof [((5 : Nat), ⟨5, "Eve"⟩)] 9).2.2.2.2 (5, ⟨5, "Eve"⟩)
      (by decide) (by decide)⟩

/-- Claim C8, counterexample: two registries holding the same map contents in
different enumeration orders (they are permutations of each other) yield
different `/list` strings, and with duplicate display names `kickClient`
selects different victims — the enumeration order, unspecified for a Go map,
determines both outcomes, so they are not stable across invocations. -/
theorem roster_order_cex :
    ([((1 : Nat), ⟨1, "Alice"⟩), (2, ⟨2, "Bob"⟩)] : Registry).Perm
      [((2 : Nat), ⟨2, "Bob"⟩), (1, ⟨1, "Alice"⟩)] ∧
    getClientList [((1 : Nat), ⟨1, "Alice"⟩), (2, ⟨2, "Bob"⟩)]
      ≠ getClientList [((2 : Nat), ⟨2, "Bob"⟩), (1, ⟨1, "Alice"⟩)] ∧
    ([((1 : Nat), ⟨1, "B"⟩), (2, ⟨2, "B"⟩)] : Registry).Perm
      [((2 : Nat), ⟨2, "B"⟩), (1, ⟨1, "B"⟩)] ∧
    (kickClient [((1 : Nat), ⟨1, "B"⟩), (2, ⟨2, "B"⟩)] "B").2.closes
      ≠ (kickClient [((2 : Nat), ⟨2, "B"⟩), (1, ⟨1, "B"⟩)] "B").2.closes :=
  ⟨by decide, by decide, by decide, by decide⟩

/-- Claim C8, amended: only order-independent aspects of the roster are
stable across enumeration orders — for registries with the same contents
(permutations of each other) the participant count, the multiset of
`"\n- <name>"` roster lines, and the total `/list` string length agree; the
string itself, and the victim chosen among duplicate names, depend on the
enumeration order. -/
theorem roster_stable (r1 r2 : Registry) (h : r1.Perm r2) :
    r1.length = r2.length ∧
    (r1.map (fun p => "\n- " ++ p.2.nickname)).Perm
      (r2.map (fun p => "\n- " ++ p.2.nickname)) ∧
    (getClientList r1).length = (getClientList r2).length := by
  refine ⟨h.length_eq, h.map _, ?_⟩
  unfold getClientList
  rw [h.length_eq]
  by_cases h0 : r2.length = 0
  · rw [if_pos h0, if_pos h0]
  · rw [if_neg h0, if_neg h0, roster_foldl_length, roster_foldl_length,
      (h.map (fun p => 3 + p.2.nickname.length)).sum_eq]

/-- Claim C8, witness: the stability theorem at the concrete permuted
registries. -/
theorem roster_stable_witness :
    ([((1 : Nat), ⟨1, "Alice"⟩), (2, ⟨2, "Bob"⟩)] : Registry).Perm
      [((2 : Nat), ⟨2, "Bob"⟩), (1, ⟨1, "Alice"⟩)] ∧
    (getClientList [((1 : Nat), ⟨1, "Alice"⟩), (2, ⟨2, "Bob"⟩)]).length
      = (getClientList [((2 : Nat), ⟨2, "Bob"⟩), (1, ⟨1, "Alice"⟩)]).length :=
  ⟨by decide, (roster_stable _ _ (by decide)).2.2⟩
